import Mathlib

/-!
# Verification of the vietnam_bot_news pipeline core

Shallow embedding of the Go news-digest bot's pipeline core:
the persisted `State` model and its reconciliation functions
(`Pipeline.updateState`, `Pipeline.updateStateFromDigest`), the filter
stage (`Filter.Apply`), the rate-limited Gemini call wrapper
(`Client.GenerateText`), the categorization batch reconciliation
(`Categorizer.categorizeBatch`), the ranking stage (`Ranker.Rank` /
`Ranker.rankBatch`), and the pipeline orchestrator (`Pipeline.Run`).

Conventions of the embedding:
* Go `time.Time` values are modelled as `Int` instants (nanoseconds, as in
  Go's internal representation); `t.Before u` is `t < u`, `t.After u` is
  `u < t`.  The wall clock (`p.clock()` / `time.Now()`) is passed as an
  explicit parameter.
* Go `float64` relevance scores are modelled as `ℚ`: the code only
  compares and copies scores (no float arithmetic is performed), so the
  ordered-field comparisons are exact.
* Go maps keyed by `string` used as sets / last-write-wins tables are
  modelled by `List`-based membership and association-list lookup with
  the same overwrite semantics.
* Fallible code returns `Except String α`; error wrapping
  (`fmt.Errorf("...: %w", err)`) becomes string prefixing or dedicated
  error constructors where the wrapper marker matters.
-/

namespace VietnamBot

/-- `news.ArticleRaw` (internal/news): a raw collected article. -/
structure ArticleRaw where
  id : String
  source : String
  title : String
  url : String
  publishedAt : Int
  rawLanguage : String
  rawContent : String
  metadata : List (String × String)
  deriving Repr, DecidableEq

/-- `news.CategorizedArticle` (internal/news): article plus category and
relevance score (zero until ranked). -/
structure CategorizedArticle where
  article : ArticleRaw
  category : String
  categoryConfidence : ℚ
  relevanceScore : ℚ
  deriving Repr, DecidableEq

/-- `news.DigestEntry` (internal/news): final per-article digest record. -/
structure DigestEntry where
  id : String
  category : String
  title : String
  url : String
  summaryRU : String
  source : String
  publishedAt : Int
  deriving Repr, DecidableEq

/-- `news.StateArticle` (internal/news): one sent-ledger row. -/
structure StateArticle where
  id : String
  sentAt : Int
  deriving Repr, DecidableEq

/-- `news.RecipientBinding` (internal/news): one delivery address. -/
structure RecipientBinding where
  name : String
  chatID : String
  updatedAt : Int
  deriving Repr, DecidableEq

/-- `news.TelegramState` (internal/news): Bot API cursor. -/
structure TelegramState where
  lastUpdateID : Int
  deriving Repr, DecidableEq

/-- `news.State` (internal/news): the persisted cross-run state. -/
structure State where
  lastRun : Int
  sentArticles : List StateArticle
  recipients : List RecipientBinding
  telegram : TelegramState
  deriving Repr, DecidableEq

/-- `news.Digest` (internal/news): the built-but-not-sent digest artifact. -/
structure Digest where
  messages : List String
  createdAt : Int
  articleIDs : List String
  deriving Repr, DecidableEq

/-- `app.maxSentHistory`: the fixed sent-ledger ceiling. -/
def maxSentHistory : Nat := 500

/-- The ids of a sent-ledger, in ledger order. -/
def ledgerIDs (l : List StateArticle) : List String := l.map (·.id)

/-- `Pipeline.updateState` (internal/app/pipeline.go): rebuild the ledger
from the previous state plus the digest entries just delivered, then clamp
to the most recent `maxSentHistory` rows; `now` is `p.clock()`.

Mirrors the Go loop: `existing` is the set of ids already in the previous
ledger (the set is *not* extended while appending), `filtered` starts as a
copy of the previous ledger and each entry whose id is not in `existing`
is appended with timestamp `now`; finally the list is sliced to its last
`maxSentHistory` elements when longer; `LastRun` is overwritten. -/
def updateState (prev : State) (entries : List DigestEntry) (now : Int) : State :=
  let existing := ledgerIDs prev.sentArticles
  let filtered := entries.foldl
    (fun acc entry =>
      if entry.id ∈ existing then acc
      else acc ++ [{ id := entry.id, sentAt := now : StateArticle }])
    prev.sentArticles
  let filtered :=
    if filtered.length > maxSentHistory then
      filtered.drop (filtered.length - maxSentHistory)
    else filtered
  { prev with lastRun := now, sentArticles := filtered }

/-- `Pipeline.updateStateFromDigest` (internal/app/pipeline.go, send-mode
path): same appending of the digest's recorded article ids, but — unlike
`updateState` — with *no* clamp of the ledger length. -/
def updateStateFromDigest (prev : State) (digest : Digest) (now : Int) : State :=
  let existing := ledgerIDs prev.sentArticles
  let filtered := digest.articleIDs.foldl
    (fun acc articleID =>
      if articleID ∈ existing then acc
      else acc ++ [{ id := articleID, sentAt := now : StateArticle }])
    prev.sentArticles
  { prev with lastRun := now, sentArticles := filtered }

/-- The rows `updateState` appends: one per entry whose id was not already
in the previous ledger (duplicates inside `entries` are all appended,
since the Go code never extends the `existing` set). -/
def newLedgerRows (prevIDs : List String) (entries : List DigestEntry) (now : Int) :
    List StateArticle :=
  (entries.filter (fun e => ¬ e.id ∈ prevIDs)).map
    (fun e => { id := e.id, sentAt := now })

theorem foldl_append_ledger (prevIDs : List String) (now : Int)
    (entries : List DigestEntry) (acc : List StateArticle) :
    entries.foldl
      (fun acc entry =>
        if entry.id ∈ prevIDs then acc
        else acc ++ [{ id := entry.id, sentAt := now : StateArticle }]) acc
      = acc ++ newLedgerRows prevIDs entries now := by
  induction entries generalizing acc with
  | nil => simp [newLedgerRows]
  | cons e es ih =>
    by_cases h : e.id ∈ prevIDs
    · simp [List.foldl_cons, h, ih, newLedgerRows, List.filter_cons]
    · simp [List.foldl_cons, h, ih, newLedgerRows, List.filter_cons,
        List.append_assoc]

/-- Closed form of the `updateState` ledger: previous ledger plus the new
rows, clamped to the last `maxSentHistory` elements. -/
theorem updateState_sentArticles (prev : State) (entries : List DigestEntry)
    (now : Int) :
    (updateState prev entries now).sentArticles =
      (let appended := prev.sentArticles ++
        newLedgerRows (ledgerIDs prev.sentArticles) entries now
      if appended.length > maxSentHistory then
        appended.drop (appended.length - maxSentHistory)
      else appended) := by
  simp only [updateState, foldl_append_ledger]

/-- The rows `updateStateFromDigest` appends: one per digest article id not
already in the previous ledger. -/
def newLedgerRowsFromIDs (prevIDs : List String) (ids : List String) (now : Int) :
    List StateArticle :=
  (ids.filter (fun i => ¬ i ∈ prevIDs)).map
    (fun i => { id := i, sentAt := now })

theorem foldl_append_ledgerIDs (prevIDs : List String) (now : Int)
    (ids : List String) (acc : List StateArticle) :
    ids.foldl
      (fun acc articleID =>
        if articleID ∈ prevIDs then acc
        else acc ++ [{ id := articleID, sentAt := now : StateArticle }]) acc
      = acc ++ newLedgerRowsFromIDs prevIDs ids now := by
  induction ids generalizing acc with
  | nil => simp [newLedgerRowsFromIDs]
  | cons i is ih =>
    by_cases h : i ∈ prevIDs
    · simp [List.foldl_cons, h, ih, newLedgerRowsFromIDs, List.filter_cons]
    · simp [List.foldl_cons, h, ih, newLedgerRowsFromIDs, List.filter_cons,
        List.append_assoc]

/-- Closed form of the `updateStateFromDigest` ledger: previous ledger plus
the new rows, with no clamp. -/
theorem updateStateFromDigest_sentArticles (prev : State) (digest : Digest)
    (now : Int) :
    (updateStateFromDigest prev digest now).sentArticles =
      prev.sentArticles ++
        newLedgerRowsFromIDs (ledgerIDs prev.sentArticles) digest.articleIDs now := by
  simp only [updateStateFromDigest, foldl_append_ledgerIDs]

/-! ## Filter stage (internal/filter/filter.go) -/

/-- `config.Pipeline` — the configuration slice the core consumes. -/
structure ConfigPipeline where
  recencyMaxHours : Int
  minContentLength : Int
  maxArticlesPerCategory : Int
  maxTotalMessages : Int
  maxArticlesBeforeGemini : Int
  categories : List String
  deriving Repr, DecidableEq

/-- One nanosecond-count hour, as in Go's `time.Hour`. -/
def nsPerHour : Int := 3600 * 1000000000

/-- `unicode.IsSpace` on the whitespace characters Go's `strings.TrimSpace`
strips in Latin-1 (space, tab, LF, VT, FF, CR, NEL, NBSP). -/
def goIsSpace (c : Char) : Bool :=
  c == ' ' || c == '\t' || c == '\n' || c == Char.ofNat 11 ||
    c == Char.ofNat 12 || c == '\r' || c == Char.ofNat 133 || c == Char.ofNat 160

/-- `strings.TrimSpace` at character level: drop whitespace from both
ends. -/
def trimChars (l : List Char) : List Char :=
  ((l.dropWhile goIsSpace).reverse.dropWhile goIsSpace).reverse

/-- `canonicalKey` (internal/filter/filter.go): lowercased trimmed URL,
falling back to lowercased trimmed title when the URL is empty. -/
def canonicalKey (article : ArticleRaw) : List Char :=
  let base := (trimChars article.url.data).map Char.toLower
  if base = [] then (trimChars article.title.data).map Char.toLower else base

/-- The per-article drop test of `Filter.Apply`'s loop body, given the
cutoff, "now", the sent-id set and the duplicate keys seen so far.  The
rules fire in source order: staleness (`Before cutoff`), future date
(`After now`), short trimmed content (counted in runes), duplicate
canonical key within the batch, already-sent id. -/
def filterKeeps (cfg : ConfigPipeline) (sentIDs : List String) (now : Int)
    (seen : List (List Char)) (article : ArticleRaw) : Bool :=
  let cutoff := now - cfg.recencyMaxHours * nsPerHour
  if article.publishedAt < cutoff then false
  else if now < article.publishedAt then false
  else if ((trimChars article.rawContent.data).length : Int) < cfg.minContentLength then false
  else if canonicalKey article ∈ seen then false
  else if article.id ∈ sentIDs then false
  else true

/-- `Filter.Apply` (internal/filter/filter.go): the batch loop, threading
the `seen` key set.  `now` is the `time.Now()` the function samples once. -/
def filterApplyLoop (cfg : ConfigPipeline) (sentIDs : List String) (now : Int) :
    List ArticleRaw → List (List Char) → List ArticleRaw
  | [], _ => []
  | article :: rest, seen =>
    if filterKeeps cfg sentIDs now seen article then
      article :: filterApplyLoop cfg sentIDs now rest (seen ++ [canonicalKey article])
    else
      filterApplyLoop cfg sentIDs now rest seen

/-- `Filter.Apply` entry point: collects the sent ids from the state and
runs the loop with an empty `seen` set (the filter never errors). -/
def filterApply (cfg : ConfigPipeline) (articles : List ArticleRaw)
    (state : State) (now : Int) : List ArticleRaw :=
  filterApplyLoop cfg (ledgerIDs state.sentArticles) now articles []

/-- Every article the filter keeps was kept by the loop-body test for some
`seen` set, so it satisfies in particular the time-window rules. -/
theorem filterApplyLoop_mem_time_window (cfg : ConfigPipeline)
    (sentIDs : List String) (now : Int) (articles : List ArticleRaw)
    (seen : List (List Char)) (a : ArticleRaw)
    (ha : a ∈ filterApplyLoop cfg sentIDs now articles seen) :
    ¬ a.publishedAt < now - cfg.recencyMaxHours * nsPerHour ∧
      ¬ now < a.publishedAt := by
  induction articles generalizing seen with
  | nil => simp [filterApplyLoop] at ha
  | cons x rest ih =>
    by_cases hk : filterKeeps cfg sentIDs now seen x
    · rw [filterApplyLoop, if_pos hk] at ha
      rcases List.mem_cons.mp ha with h | h
      · subst h
        unfold filterKeeps at hk
        by_cases h1 : a.publishedAt < now - cfg.recencyMaxHours * nsPerHour
        · simp [h1] at hk
        by_cases h2 : now < a.publishedAt
        · simp [h1, h2] at hk
        exact ⟨h1, h2⟩
      · exact ih _ h
    · rw [filterApplyLoop, if_neg hk] at ha
      exact ih _ ha

/-! ## Rate-limited Gemini call wrapper (internal/gemini/client.go)

Error classification is substring matching on the lowercased error text
(`strings.ToLower` + `strings.Contains`); the needles are ASCII, so
mapping `Char.toLower` over the characters is an exact model. -/

/-- `needle` is a contiguous prefix of `hay` (char-level). -/
def isPrefixChars : List Char → List Char → Bool
  | [], _ => true
  | _ :: _, [] => false
  | c :: cs, d :: ds => c == d && isPrefixChars cs ds

/-- `strings.Contains hay needle` at character level. -/
def containsChars (needle : List Char) : List Char → Bool
  | [] => isPrefixChars needle []
  | c :: rest => isPrefixChars needle (c :: rest) || containsChars needle rest

/-- `strings.ToLower`, restricted to the ASCII folding the classifiers use. -/
def lowerStr (s : String) : List Char := s.data.map Char.toLower

/-- `strings.Contains(errLower, needle)` where `errLower` is the lowercased
error text. -/
def goContains (errLower : List Char) (needle : String) : Bool :=
  containsChars needle.data errLower

/-- `isRPDQuotaError` (internal/gemini/client.go): a 429 error carrying the
daily-quota markers. -/
def isRPDQuotaError (errStr : String) : Bool :=
  let errLower := lowerStr errStr
  if ¬ (goContains errLower "429" || goContains errLower "code: 429") then
    false
  else
    goContains errLower "limit: 20" ||
      goContains errLower "generate_content_free_tier_requests"

/-- `isRateLimitError` (internal/gemini/client.go): 429/RPM/TPM throttling,
explicitly excluding RPD quota errors. -/
def isRateLimitError (errStr : String) : Bool :=
  let errLower := lowerStr errStr
  if isRPDQuotaError errStr then false
  else
    goContains errLower "rate limit" ||
      goContains errLower "429" ||
      goContains errLower "too many requests" ||
      goContains errLower "resource exhausted"

/-- `isServiceUnavailableError` (internal/gemini/client.go): 503 / model
overloaded. -/
def isServiceUnavailableError (errStr : String) : Bool :=
  let errLower := lowerStr errStr
  goContains errLower "503" ||
    goContains errLower "service unavailable" ||
    goContains errLower "overloaded" ||
    goContains errLower "model overloaded"

/-- `isTemporaryError` (internal/gemini/client.go): 500/502/504-class. -/
def isTemporaryError (errStr : String) : Bool :=
  let errLower := lowerStr errStr
  goContains errLower "500" ||
    goContains errLower "502" ||
    goContains errLower "504" ||
    goContains errLower "internal server error" ||
    goContains errLower "bad gateway" ||
    goContains errLower "gateway timeout"

/-- `isQuotaExceededError` (internal/gemini/client.go): generic quota /
daily-limit / 403 markers. -/
def isQuotaExceededError (errStr : String) : Bool :=
  let errLower := lowerStr errStr
  goContains errLower "quota" ||
    goContains errLower "quota exceeded" ||
    goContains errLower "daily limit" ||
    goContains errLower "403"

/-- The distinct error results `Client.GenerateText` can surface; each
constructor corresponds to one `fmt.Errorf` wrapper with a distinct
marker prefix in the Go code. -/
inductive GenError where
  /-- `ctx.Err()` observed while waiting out a backoff. -/
  | cancelled
  /-- `"gemini API RPD quota exceeded (daily limit reached): %w"`. -/
  | rpdQuota (e : String)
  /-- `"gemini API quota exceeded: %w"`. -/
  | quota (e : String)
  /-- `"max retries exceeded: %w"`. -/
  | maxRetries (e : String)
  /-- `"generate content: %w"` (non-retryable other error). -/
  | generate (e : String)
  /-- `"get text from result: %w"`. -/
  | textErr (e : String)
  deriving Repr, DecidableEq

/-- One `GenerateContent` call outcome as the wrapper observes it. -/
inductive CallOutcome where
  /-- call succeeded and `result.Text()` succeeded. -/
  | ok (text : String)
  /-- call succeeded but `result.Text()` failed. -/
  | textFailed (e : String)
  /-- call returned an error with the given `err.Error()` text. -/
  | failed (e : String)
  deriving Repr, DecidableEq

/-- `maxRetries` constant of `Client.GenerateText`. -/
def genMaxRetries : Nat := 5

/-- The retry loop of `Client.GenerateText` (internal/gemini/client.go).

`calls k` is the outcome of the `k`-th `GenerateContent` call (0-based);
`cancelled k` tells whether the cancellation signal is observed during the
backoff that precedes attempt `k` (the backoff, and hence the check, only
happens for `attempt > 0`).  `fuel` is `maxRetries - attempt`; the flags
`isServiceUnavailable` / `isRateLimitRPMTPM` of the source only select the
backoff duration, which is unobservable here, so they are not threaded.
Returns the result together with the number of calls actually made. -/
def generateTextAux (calls : Nat → CallOutcome) (cancelled : Nat → Bool) :
    Nat → Nat → String → Except GenError String × Nat
  | _, 0, lastErr => (.error (.maxRetries lastErr), 0)
  | attempt, fuel + 1, _ =>
    if 0 < attempt ∧ cancelled attempt then (.error .cancelled, 0)
    else
      match calls attempt with
      | .ok text => (.ok text, 1)
      | .textFailed e => (.error (.textErr e), 1)
      | .failed e =>
        if isRPDQuotaError e then (.error (.rpdQuota e), 1)
        else if isRateLimitError e then
          let r := generateTextAux calls cancelled (attempt + 1) fuel e
          (r.1, r.2 + 1)
        else if isServiceUnavailableError e then
          let r := generateTextAux calls cancelled (attempt + 1) fuel e
          (r.1, r.2 + 1)
        else if isTemporaryError e then
          let r := generateTextAux calls cancelled (attempt + 1) fuel e
          (r.1, r.2 + 1)
        else if isQuotaExceededError e then (.error (.quota e), 1)
        else (.error (.generate e), 1)

/-- `Client.GenerateText`: run the loop from attempt 0 with the full retry
budget (`lastErr` starts unset; it is only read after at least one failed
attempt overwrote it). -/
def generateText (calls : Nat → CallOutcome) (cancelled : Nat → Bool) :
    Except GenError String × Nat :=
  generateTextAux calls cancelled 0 genMaxRetries ""

/-- The code's own classification chain lands in a quota branch: either the
RPD check fires, or none of the retryable checks fire and the generic
quota check does. -/
def quotaClassified (e : String) : Bool :=
  isRPDQuotaError e ||
    (!isRateLimitError e && !isServiceUnavailableError e &&
      !isTemporaryError e && isQuotaExceededError e)

/-- A failure the loop retries: not RPD quota, and rate-limit / 503 /
temporary. -/
def retryableClassified (e : String) : Bool :=
  !isRPDQuotaError e &&
    (isRateLimitError e || isServiceUnavailableError e || isTemporaryError e)

/-- The loop's error result is marked as a quota error. -/
def quotaMarked : GenError → Bool
  | .rpdQuota _ => true
  | .quota _ => true
  | _ => false

/-! ## Categorization batch reconciliation (internal/gemini/categorizer.go)

`categorizeBatch` is modelled from the point the response list has been
parsed: building the Go maps (last-write-wins) and producing the output in
input order.  Go maps are modelled as append-only association lists read by
last-match lookup; a read of a missing key yields Go's zero value. -/

/-- One parsed `categoryResponse` record. -/
structure CategoryResponse where
  id : String
  category : String
  deriving Repr, DecidableEq

/-- Go-map lookup: the value of the *last* insertion for the key. -/
def alistGet {β : Type} (m : List (String × β)) (k : String) : Option β :=
  m.foldl (fun acc p => if p.1 = k then some p.2 else acc) none

/-- `strings.EqualFold` on the ASCII folding the configured categories use. -/
def goEqualFold (s t : String) : Bool :=
  s.data.map Char.toLower == t.data.map Char.toLower

/-- `Categorizer.isValidCategory`: case-insensitive, trimmed comparison
against the configured category list. -/
def isValidCategory (cats : List String) (category : String) : Bool :=
  cats.any (fun validCat =>
    goEqualFold (String.mk (trimChars category.data))
      (String.mk (trimChars validCat.data)))

/-- The default category constant `"Другое / Разное"`. -/
def defaultCategory : String := "Другое / Разное"

/-- Go's zero value for `news.ArticleRaw`. -/
def zeroArticleRaw : ArticleRaw :=
  { id := "", source := "", title := "", url := "", publishedAt := 0,
    rawLanguage := "", rawContent := "", metadata := [] }

/-- Go's zero value for `news.CategorizedArticle` (what reading a missing
map key would produce). -/
def zeroCategorizedArticle : CategorizedArticle :=
  { article := zeroArticleRaw, category := "", categoryConfidence := 0,
    relevanceScore := 0 }

/-- `articleMap` construction of `categorizeBatch`: id-keyed map over the
batch (later duplicates overwrite). -/
def buildArticleMap (articles : List ArticleRaw) : List (String × ArticleRaw) :=
  articles.foldl (fun m a => m ++ [(a.id, a)]) []

/-- The first reconciliation loop: fold the parsed responses into the
categorized map, skipping ids that are not in the batch, trimming the
category and coercing it to the default when not configured. -/
def categorizedMapStep (cats : List String)
    (articleMap : List (String × ArticleRaw))
    (m : List (String × CategorizedArticle)) (catResp : CategoryResponse) :
    List (String × CategorizedArticle) :=
  match alistGet articleMap catResp.id with
  | none => m
  | some article =>
    let category := String.mk (trimChars catResp.category.data)
    let category :=
      if isValidCategory cats category then category else defaultCategory
    m ++ [(article.id,
      { article := article, category := category,
        categoryConfidence := 0, relevanceScore := 0 : CategorizedArticle })]

def buildCategorizedMap (cats : List String) (articleMap : List (String × ArticleRaw))
    (resp : List CategoryResponse) : List (String × CategorizedArticle) :=
  resp.foldl (categorizedMapStep cats articleMap) []

/-- The second reconciliation loop: give every input article the response
omitted the default category. -/
def fillStep (m : List (String × CategorizedArticle)) (article : ArticleRaw) :
    List (String × CategorizedArticle) :=
  if (alistGet m article.id).isSome then m
  else m ++ [(article.id,
    { article := article, category := defaultCategory,
      categoryConfidence := 0, relevanceScore := 0 : CategorizedArticle })]

def fillDefaults (articles : List ArticleRaw)
    (m0 : List (String × CategorizedArticle)) : List (String × CategorizedArticle) :=
  articles.foldl fillStep m0

/-- `Categorizer.categorizeBatch` reconciliation: build `articleMap` from
the inputs, fold the parsed responses into `categorizedMap`, fill in the
default for every input id the response omitted, then emit one output per
input article in input order (a missing map key would read as Go's zero
value; the fill loop guarantees every id is present). -/
def categorizeBatchModel (cats : List String) (articles : List ArticleRaw)
    (resp : List CategoryResponse) : List CategorizedArticle :=
  let articleMap := buildArticleMap articles
  let categorizedMap := buildCategorizedMap cats articleMap resp
  let categorizedMap := fillDefaults articles categorizedMap
  articles.map (fun article =>
    (alistGet categorizedMap article.id).getD zeroCategorizedArticle)

theorem alistGet_append_single {β : Type} (m : List (String × β)) (k k' : String)
    (v : β) :
    alistGet (m ++ [(k', v)]) k = if k' = k then some v else alistGet m k := by
  simp [alistGet, List.foldl_append]

/-! ## Ranking stage (internal/ranking/ranker.go)

`rankBatch` is modelled from the point the score list has been parsed;
the Gemini call + parse of `rankCategory` enters as an `Except` parameter.
`sort.Slice` with the strict descending-score comparator is modelled as
insertion sort, which is the algorithm Go applies to slices shorter than
12 elements (and the theorems below only use it on lists whose scores are
pairwise equal, where any run of it leaves the order unchanged). -/

/-- One parsed `relevanceScoreResponse` record. -/
structure RelevanceScoreResponse where
  id : String
  relevanceScore : ℚ
  deriving Repr, DecidableEq

/-- The score validation in `rankBatch`: clamp below at 0 then above at 10,
in source order. -/
def clampScore (score : ℚ) : ℚ :=
  let score := if score < 0 then 0 else score
  let score := if score > 10 then 10 else score
  score

/-- `scoresMap` lookup: the clamped score of the last response entry for
the id. -/
def scoresMapGet (scores : List RelevanceScoreResponse) (i : String) : Option ℚ :=
  scores.foldl
    (fun acc scoreResp =>
      if scoreResp.id = i then some (clampScore scoreResp.relevanceScore) else acc)
    none

/-- The reconciliation loop of `rankBatch`: every input article keeps its
fields and receives its clamped response score, or the 5.0 midpoint
fallback when the response omitted its id. -/
def rankBatchReconcile (articles : List CategorizedArticle)
    (scores : List RelevanceScoreResponse) : List CategorizedArticle :=
  articles.map (fun article =>
    let score := match scoresMapGet scores article.article.id with
      | some s => s
      | none => 5
    { article with relevanceScore := score })

/-- Insertion step of the descending-by-score sort (comparator
`scored[i].RelevanceScore > scored[j].RelevanceScore`). -/
def insertScoredDesc (x : CategorizedArticle) :
    List CategorizedArticle → List CategorizedArticle
  | [] => [x]
  | y :: ys =>
    if x.relevanceScore > y.relevanceScore then x :: y :: ys
    else y :: insertScoredDesc x ys

/-- `sort.Slice(scored, score-descending)` of `Ranker.Rank`: inserting the
elements left to right reproduces Go's stable insertion-sort behaviour
(elements move left only while strictly greater). -/
def sortByScoreDesc (l : List CategorizedArticle) : List CategorizedArticle :=
  l.foldl (fun acc x => insertScoredDesc x acc) []

/-- `Ranker.rankCategory` from the parsed-response seam: empty categories
return without a call; otherwise the call/parse outcome `resp` either
fails (wrapped with the category context) or is reconciled by
`rankBatch`. -/
def rankCategoryModel (category : String) (articles : List CategorizedArticle)
    (resp : Except String (List RelevanceScoreResponse)) :
    Except String (List CategorizedArticle) :=
  if articles = [] then .ok []
  else
    match resp with
    | .error e => .error ("rank category " ++ category ++ ": " ++ e)
    | .ok scores => .ok (rankBatchReconcile articles scores)

/-- One iteration of `Ranker.Rank`'s per-category loop: rank the category,
fall back to the unscored input on error, sort descending by score, and
truncate to `maxPerCategory`. -/
def rankOneCategory (maxPerCategory : Nat) (category : String)
    (articles : List CategorizedArticle)
    (resp : Except String (List RelevanceScoreResponse)) :
    List CategorizedArticle :=
  let scored := match rankCategoryModel category articles resp with
    | .error _ => articles
    | .ok s => s
  let scored := sortByScoreDesc scored
  scored.take maxPerCategory

/-! ## Pipeline orchestrator (internal/app/pipeline.go, `Pipeline.Run`)

The orchestrator is embedded with its injected dependencies as explicit
function-valued parameters (exactly the interface fields of `Pipeline`),
and the externally visible store/sender mutations recorded as an ordered
effect trace.  Dependency-presence validation (`validateDeps`) is elided:
the model's dependencies are total values.  The two fixed 1-minute
inter-stage waits only observe cancellation, modelled by `ctxDone`. -/

/-- An externally visible effect of a pipeline run, in occurrence order. -/
inductive Effect where
  /-- `sender.Send(recipients, messages)` succeeded. -/
  | sent (recipients : List RecipientBinding) (messages : List String)
  /-- `stateStore.Save(state)` succeeded. -/
  | savedState (s : State)
  /-- `stateStore.SaveDigest(digest)` succeeded. -/
  | savedDigest (d : Digest)
  /-- `stateStore.DeleteDigest()` succeeded. -/
  | deletedDigest
  deriving Repr, DecidableEq

/-- The mode flags and config of a `Pipeline` instance. -/
structure PipelineFlags where
  forceDispatch : Bool
  skipGemini : Bool
  sendTestMessage : Bool
  buildMode : Bool
  sendMode : Bool
  /-- whether `p.sender` is non-nil (only observable in the test-message
  branch, which checks it explicitly). -/
  senderPresent : Bool
  cfg : ConfigPipeline
  deriving Repr, DecidableEq

/-- The injected dependencies and environment of one `Run` invocation. -/
structure RunDeps where
  loadState : Except String State
  /-- `p.recipients`: `none` models a nil resolver. -/
  resolve : Option (State → Except String (State × List RecipientBinding))
  collect : Except String (List ArticleRaw)
  filterStage : List ArticleRaw → State → Except String (List ArticleRaw)
  categorize : List ArticleRaw → Except String (List CategorizedArticle)
  rank : List CategorizedArticle → Except String (List CategorizedArticle)
  summarize : List CategorizedArticle → Except String (List DigestEntry)
  buildMessages : List DigestEntry → Except String (List String)
  sendResult : List RecipientBinding → List String → Except String Unit
  loadDigest : Except String (Option Digest)
  saveStateResult : State → Except String Unit
  saveDigestResult : Digest → Except String Unit
  deleteDigestResult : Except String Unit
  /-- whether the cancellation signal has fired (observed at the two
  inter-stage waits). -/
  ctxDone : Bool
  /-- `p.clock()`. -/
  now : Int

/-- The fixed no-relevant-news service message. -/
def serviceMessage : String :=
  "Сегодня не набралось достаточно релевантных новостей для дайджеста. Вернёмся завтра."

/-- The fixed test message of the `SEND_TEST_MESSAGE` branch. -/
def testMessage : String :=
  "🧪 *Тестовое сообщение*\n\nЭто тестовое сообщение для проверки отправки в Telegram. Полный дайджест будет отправляться автоматически раз в день после обработки новостей через Gemini."

/-- `ctx.Err()` when the context was cancelled. -/
def ctxCanceledMsg : String := "context canceled"

/-- `"no recipients registered; ask users to contact the bot"`. -/
def noRecipientsMsg : String := "no recipients registered; ask users to contact the bot"

/-- Insertion step of the descending-by-`PublishedAt` sort used by the
pre-Gemini volume limiting (comparator `PublishedAt.After`). -/
def insertRecentDesc (x : ArticleRaw) : List ArticleRaw → List ArticleRaw
  | [] => [x]
  | y :: ys =>
    if y.publishedAt < x.publishedAt then x :: y :: ys
    else y :: insertRecentDesc x ys

/-- `sort.Slice(filtered, most-recent-first)`. -/
def sortByPublishedDesc (l : List ArticleRaw) : List ArticleRaw :=
  l.foldl (fun acc x => insertRecentDesc x acc) []

/-- The RPD volume limiting applied between filtering and categorization:
when configured and exceeded, keep only the `MaxArticlesBeforeGemini` most
recent articles. -/
def limitArticles (cfg : ConfigPipeline) (filtered : List ArticleRaw) :
    List ArticleRaw :=
  if 0 < cfg.maxArticlesBeforeGemini ∧
      cfg.maxArticlesBeforeGemini < (filtered.length : Int) then
    (sortByPublishedDesc filtered).take cfg.maxArticlesBeforeGemini.toNat
  else filtered

/-- The `SEND_TEST_MESSAGE=1` branch of `Run`. -/
def runTestBranch (d : RunDeps) (p : PipelineFlags)
    (recipients : List RecipientBinding) : Except String Unit × List Effect :=
  if recipients ≠ [] ∧ p.senderPresent then
    match d.sendResult recipients [testMessage] with
    | .error e => (.error ("send test message: " ++ e), [])
    | .ok _ => (.ok (), [.sent recipients [testMessage]])
  else if recipients = [] then (.error noRecipientsMsg, [])
  else (.ok (), [])

/-- Steps 1–6 of `Run` (collect → filter → limit → categorize → rank →
summarize → format → dispatch/persist), including the dry-run stop, the
no-relevant-news terminal and the build-mode digest persistence. -/
def runMainBody (p : PipelineFlags) (d : RunDeps) (state : State)
    (recipients : List RecipientBinding) : Except String Unit × List Effect :=
  match d.collect with
  | .error e => (.error ("collect articles: " ++ e), [])
  | .ok rawArticles =>
  match d.filterStage rawArticles state with
  | .error e => (.error ("filter articles: " ++ e), [])
  | .ok filtered =>
  let filtered := limitArticles p.cfg filtered
  if p.skipGemini then (.ok (), [])
  else
  match d.categorize filtered with
  | .error e => (.error ("categorize articles: " ++ e), [])
  | .ok categorized =>
  if d.ctxDone then (.error ctxCanceledMsg, [])
  else
  match d.rank categorized with
  | .error e => (.error ("rank articles: " ++ e), [])
  | .ok ranked =>
  if ranked = [] then
    if p.buildMode then
      let digest : Digest :=
        { messages := [serviceMessage], createdAt := d.now, articleIDs := [] }
      match d.saveDigestResult digest with
      | .error e => (.error ("save digest (no-news service message): " ++ e), [])
      | .ok _ => (.ok (), [.savedDigest digest])
    else if recipients = [] ∧ ¬ p.forceDispatch then (.error noRecipientsMsg, [])
    else if recipients ≠ [] then
      match d.sendResult recipients [serviceMessage] with
      | .error e =>
        (.error ("send 'no news today' service message: " ++ e), [])
      | .ok _ => (.ok (), [.sent recipients [serviceMessage]])
    else (.ok (), [])
  else
  if d.ctxDone then (.error ctxCanceledMsg, [])
  else
  match d.summarize ranked with
  | .error e => (.error ("summarize articles: " ++ e), [])
  | .ok digestEntries =>
  match d.buildMessages digestEntries with
  | .error e => (.error ("build messages: " ++ e), [])
  | .ok messages =>
  let articleIDs := digestEntries.map (·.id)
  if p.buildMode then
    let digest : Digest :=
      { messages := messages, createdAt := d.now, articleIDs := articleIDs }
    match d.saveDigestResult digest with
    | .error e => (.error ("save digest: " ++ e), [])
    | .ok _ => (.ok (), [.savedDigest digest])
  else
  if messages ≠ [] ∧ recipients = [] ∧ ¬ p.forceDispatch then
    (.error noRecipientsMsg, [])
  else
    let sendStep : Except String Unit × List Effect :=
      if messages ≠ [] ∧ recipients ≠ [] then
        match d.sendResult recipients messages with
        | .error e => (.error ("send messages: " ++ e), [])
        | .ok _ => (.ok (), [.sent recipients messages])
      else (.ok (), [])
    match sendStep with
    | (.error e, effs) => (.error e, effs)
    | (.ok _, effs) =>
      let newState := updateState state digestEntries d.now
      match d.saveStateResult newState with
      | .error e => (.error ("save state: " ++ e), effs)
      | .ok _ => (.ok (), effs ++ [.savedState newState])

/-- The recipient-resolution step: `recipients` stays empty when the
resolver dependency is nil. -/
def resolveStep (d : RunDeps) (state0 : State) :
    Except String (State × List RecipientBinding) :=
  match d.resolve with
  | none => .ok (state0, [])
  | some f => f state0

/-- `Run` for a pipeline whose `sendMode` is false (load state, resolve
recipients, test-message branch, then the main body).  This is also the
behaviour of the fallback pipeline the send mode constructs when no digest
artifact exists. -/
def runNoSendMode (p : PipelineFlags) (d : RunDeps) :
    Except String Unit × List Effect :=
  match d.loadState with
  | .error e => (.error ("load state: " ++ e), [])
  | .ok state0 =>
  match resolveStep d state0 with
  | .error e => (.error ("resolve recipients: " ++ e), [])
  | .ok (state, recipients) =>
  if p.sendTestMessage then runTestBranch d p recipients
  else runMainBody p d state recipients

/-- The `SEND_MODE` branch body, given the resolved state and recipients:
load the digest; with no artifact, fall back to a full combined run
(`buildMode`/`sendMode` cleared); with an empty artifact, delete it and
stop; otherwise dispatch it, persist the reconciled state and delete the
artifact (delete failures are logged, not surfaced). -/
def runSendBranch (p : PipelineFlags) (d : RunDeps) (state : State)
    (recipients : List RecipientBinding) : Except String Unit × List Effect :=
  match d.loadDigest with
  | .error e => (.error ("load digest: " ++ e), [])
  | .ok none => runNoSendMode { p with buildMode := false, sendMode := false } d
  | .ok (some digest) =>
  if digest.messages = [] then
    match d.deleteDigestResult with
    | .error _ => (.ok (), [])
    | .ok _ => (.ok (), [.deletedDigest])
  else
  if recipients = [] ∧ ¬ p.forceDispatch then (.error noRecipientsMsg, [])
  else
    let sendStep : Except String Unit × List Effect :=
      if recipients = [] then (.ok (), [])
      else
        match d.sendResult recipients digest.messages with
        | .error e => (.error ("send messages: " ++ e), [])
        | .ok _ => (.ok (), [.sent recipients digest.messages])
    match sendStep with
    | (.error e, effs) => (.error e, effs)
    | (.ok _, effs) =>
      let newState := updateStateFromDigest state digest d.now
      match d.saveStateResult newState with
      | .error e => (.error ("save state: " ++ e), effs)
      | .ok _ =>
        let effs := effs ++ [.savedState newState]
        match d.deleteDigestResult with
        | .error _ => (.ok (), effs)
        | .ok _ => (.ok (), effs ++ [.deletedDigest])

/-- `Pipeline.Run`: the full entry point. -/
def run (p : PipelineFlags) (d : RunDeps) : Except String Unit × List Effect :=
  match d.loadState with
  | .error e => (.error ("load state: " ++ e), [])
  | .ok state0 =>
  match resolveStep d state0 with
  | .error e => (.error ("resolve recipients: " ++ e), [])
  | .ok (state, recipients) =>
  if p.sendTestMessage then runTestBranch d p recipients
  else if p.sendMode then runSendBranch p d state recipients
  else runMainBody p d state recipients

/-! ## Claim theorems -/

/-- C10: state reconciliation only touches `LastRun` and `SentArticles`:
the `Recipients` list and the Telegram cursor of the result are those of
the input State, for both `updateState` and `updateStateFromDigest`. -/
theorem updateState_frame (prev : State) (entries : List DigestEntry)
    (digest : Digest) (now : Int) :
    (updateState prev entries now).recipients = prev.recipients ∧
    (updateState prev entries now).telegram.lastUpdateID =
      prev.telegram.lastUpdateID ∧
    (updateStateFromDigest prev digest now).recipients = prev.recipients ∧
    (updateStateFromDigest prev digest now).telegram.lastUpdateID =
      prev.telegram.lastUpdateID :=
  ⟨rfl, rfl, rfl, rfl⟩

/-- A 500-row ledger (the configured cap) of identical rows. -/
def prevLedger500 : List StateArticle :=
  List.replicate 500 { id := "a", sentAt := 0 }

/-- A previous State already at the ledger cap. -/
def prevState500 : State :=
  { lastRun := 0, sentArticles := prevLedger500, recipients := [],
    telegram := { lastUpdateID := 0 } }

/-- A consumed Digest recording one article id not yet in the ledger. -/
def digestX : Digest := { messages := ["m"], createdAt := 0, articleIDs := ["x"] }

set_option maxRecDepth 4000 in
/-- C2 counterexample: in the send-mode path, reconciling a full 500-row
ledger with a digest holding one new id yields a 501-row ledger — the
claimed truncation to the most recent 500 entries does not happen in
`updateStateFromDigest`. -/
theorem updateStateFromDigest_no_truncation_cex :
    ((updateStateFromDigest prevState500 digestX 7).sentArticles).length = 501 := by
  rw [updateStateFromDigest_sentArticles]
  have h1 : ledgerIDs prevState500.sentArticles = List.replicate 500 "a" := by
    simp [prevState500, prevLedger500, ledgerIDs, List.map_replicate]
  have h2 : newLedgerRowsFromIDs (ledgerIDs prevState500.sentArticles)
      digestX.articleIDs 7 = [{ id := "x", sentAt := 7 }] := by
    rw [h1]
    simp [newLedgerRowsFromIDs, digestX, List.mem_replicate]
  rw [h2]
  simp [prevState500, prevLedger500]

/-- C2 (amended): both reconciliation functions overwrite `lastRun` with
the current time and append exactly one row (id, current timestamp) per
delivered id not already in the ledger; `updateState` then clamps the
ledger to its most recent 500 rows, evicting the oldest by insertion
order, so its length is `min (appended length) 500` — but
`updateStateFromDigest` (the send-mode path) performs no truncation and
returns the full appended ledger. -/
theorem updateState_reconciliation (prev : State) (entries : List DigestEntry)
    (digest : Digest) (now : Int) :
    (updateState prev entries now).lastRun = now ∧
    (updateStateFromDigest prev digest now).lastRun = now ∧
    (updateState prev entries now).sentArticles =
      (prev.sentArticles ++
          newLedgerRows (ledgerIDs prev.sentArticles) entries now).drop
        ((prev.sentArticles ++
            newLedgerRows (ledgerIDs prev.sentArticles) entries now).length
          - maxSentHistory) ∧
    (updateState prev entries now).sentArticles.length =
      min (prev.sentArticles ++
        newLedgerRows (ledgerIDs prev.sentArticles) entries now).length
        maxSentHistory ∧
    (updateStateFromDigest prev digest now).sentArticles =
      prev.sentArticles ++
        newLedgerRowsFromIDs (ledgerIDs prev.sentArticles) digest.articleIDs now := by
  refine ⟨rfl, rfl, ?_, ?_, updateStateFromDigest_sentArticles prev digest now⟩
  · rw [updateState_sentArticles]
    set appended := prev.sentArticles ++
      newLedgerRows (ledgerIDs prev.sentArticles) entries now with happ
    by_cases h : appended.length > maxSentHistory
    · simp [h]
    · have h0 : appended.length - maxSentHistory = 0 := by omega
      simp [h, h0]
  · rw [updateState_sentArticles]
    set appended := prev.sentArticles ++
      newLedgerRows (ledgerIDs prev.sentArticles) entries now with happ
    by_cases h : appended.length > maxSentHistory
    · simp [h, List.length_drop]
      omega
    · simp [h]
      omega

theorem ledgerIDs_append (l₁ l₂ : List StateArticle) :
    ledgerIDs (l₁ ++ l₂) = ledgerIDs l₁ ++ ledgerIDs l₂ := by
  simp [ledgerIDs]

theorem ledgerIDs_newLedgerRows (prevIDs : List String)
    (entries : List DigestEntry) (now : Int) :
    ledgerIDs (newLedgerRows prevIDs entries now) =
      (entries.filter (fun e => ¬ e.id ∈ prevIDs)).map (·.id) := by
  simp [ledgerIDs, newLedgerRows, List.map_map, Function.comp]

/-- A single `updateState` application keeps the ledger ids duplicate-free
when the previous ledger ids and the entry ids are. -/
theorem updateState_ids_nodup (prev : State) (entries : List DigestEntry)
    (now : Int) (hprev : (ledgerIDs prev.sentArticles).Nodup)
    (hent : (entries.map (·.id)).Nodup) :
    (ledgerIDs (updateState prev entries now).sentArticles).Nodup := by
  have hfilt : ((entries.filter
      (fun e => ¬ e.id ∈ ledgerIDs prev.sentArticles)).map (·.id)).Nodup :=
    ((List.filter_sublist entries).map (·.id)).nodup hent
  have happ : (ledgerIDs (prev.sentArticles ++
      newLedgerRows (ledgerIDs prev.sentArticles) entries now)).Nodup := by
    rw [ledgerIDs_append, ledgerIDs_newLedgerRows]
    refine List.nodup_append.mpr ⟨hprev, hfilt, ?_⟩
    intro x hx hx'
    rcases List.mem_map.mp hx' with ⟨e, he, rfl⟩
    have := List.of_mem_filter he
    simp at this
    exact this hx
  rw [updateState_sentArticles]
  set appended := prev.sentArticles ++
    newLedgerRows (ledgerIDs prev.sentArticles) entries now with happdef
  by_cases h : appended.length > maxSentHistory
  · simp only [h, if_true, gt_iff_lt, if_pos]
    have : ledgerIDs (appended.drop (appended.length - maxSentHistory)) =
        (ledgerIDs appended).drop (appended.length - maxSentHistory) := by
      simp [ledgerIDs, List.map_drop]
    rw [this]
    exact (List.drop_sublist _ _).nodup happ
  · simpa [h] using happ

/-- The empty initial state used by the C4 scenarios. -/
def c4EmptyState : State :=
  { lastRun := 0, sentArticles := [], recipients := [],
    telegram := { lastUpdateID := 0 } }

/-- A digest entry with id `"a"`. -/
def c4EntryA : DigestEntry :=
  { id := "a", category := "", title := "", url := "", summaryRU := "",
    source := "", publishedAt := 0 }

/-- C4 counterexample: with an entries list that repeats an id, even the
first `updateState` application inserts two ledger rows for it (the
`existing` set is never extended during the append loop), and the second
application keeps both — id `"a"` appears twice, not once. -/
theorem updateState_twice_duplicate_cex :
    (ledgerIDs (updateState (updateState c4EmptyState [c4EntryA, c4EntryA] 1)
      [c4EntryA, c4EntryA] 2).sentArticles).count "a" = 2 := by
  decide

/-- C4 (amended): provided the previous ledger ids and the entry ids are
each duplicate-free, applying `updateState` twice with the same entries
yields a ledger with no duplicate ids; and when the previous ledger plus
the entries fit within the 500-row cap, each entry id appears exactly
once.  (With a repeated id inside `entries` the original claim fails, see
the counterexample; and an entry id can be evicted entirely once the cap
overflows.) -/
theorem updateState_twice_idempotent (prev : State) (entries : List DigestEntry)
    (t₁ t₂ : Int) (hprev : (ledgerIDs prev.sentArticles).Nodup)
    (hent : (entries.map (·.id)).Nodup) :
    (ledgerIDs (updateState (updateState prev entries t₁) entries
      t₂).sentArticles).Nodup ∧
    (prev.sentArticles.length + entries.length ≤ maxSentHistory →
      ∀ e ∈ entries,
        (ledgerIDs (updateState (updateState prev entries t₁) entries
          t₂).sentArticles).count e.id = 1) := by
  constructor
  · exact updateState_ids_nodup _ _ _
      (updateState_ids_nodup prev entries t₁ hprev hent) hent
  · intro hlen e he
    -- without overflow the first application does not truncate
    have hrows_len : (newLedgerRows (ledgerIDs prev.sentArticles) entries
        t₁).length ≤ entries.length := by
      calc (newLedgerRows (ledgerIDs prev.sentArticles) entries t₁).length
          = (entries.filter
              (fun e => ¬ e.id ∈ ledgerIDs prev.sentArticles)).length := by
            simp [newLedgerRows]
        _ ≤ entries.length := (List.filter_sublist entries).length_le
    have happlen : (prev.sentArticles ++
        newLedgerRows (ledgerIDs prev.sentArticles) entries t₁).length ≤
        maxSentHistory := by
      rw [List.length_append]
      omega
    have hledger₁ : (updateState prev entries t₁).sentArticles =
        prev.sentArticles ++
          newLedgerRows (ledgerIDs prev.sentArticles) entries t₁ := by
      rw [updateState_sentArticles]
      simp only [gt_iff_lt]
      rw [if_neg (by omega)]
    -- every entry id is present after the first application
    have hmem : ∀ e' ∈ entries,
        e'.id ∈ ledgerIDs (updateState prev entries t₁).sentArticles := by
      intro e' he'
      rw [hledger₁, ledgerIDs_append, ledgerIDs_newLedgerRows]
      by_cases hin : e'.id ∈ ledgerIDs prev.sentArticles
      · exact List.mem_append_left _ hin
      · refine List.mem_append_right _ (List.mem_map.mpr ⟨e', ?_, rfl⟩)
        exact List.mem_filter.mpr ⟨he', by simpa using hin⟩
    -- hence the second application appends nothing
    have hrows₂ : newLedgerRows
        (ledgerIDs (updateState prev entries t₁).sentArticles) entries t₂ = [] := by
      unfold newLedgerRows
      rw [List.filter_eq_nil_iff.mpr, List.map_nil]
      intro e' he'
      simpa using hmem e' he'
    have hledger₂ : (updateState (updateState prev entries t₁) entries
        t₂).sentArticles = (updateState prev entries t₁).sentArticles := by
      rw [updateState_sentArticles, hrows₂, List.append_nil]
      rw [if_neg (by rw [hledger₁]; omega)]
    rw [hledger₂]
    exact List.count_eq_one_of_mem
      (updateState_ids_nodup prev entries t₁ hprev hent) (hmem e he)

/-- A second digest entry with id `"b"`. -/
def c4EntryB : DigestEntry :=
  { id := "b", category := "", title := "", url := "", summaryRU := "",
    source := "", publishedAt := 0 }

/-- C4 witness: the amended idempotence theorem applied to a concrete
state and a duplicate-free entry list. -/
theorem updateState_twice_idempotent_witness :
    (ledgerIDs (updateState (updateState c4EmptyState [c4EntryA, c4EntryB] 1)
      [c4EntryA, c4EntryB] 2).sentArticles).Nodup ∧
    (ledgerIDs (updateState (updateState c4EmptyState [c4EntryA, c4EntryB] 1)
      [c4EntryA, c4EntryB] 2).sentArticles).count "a" = 1 :=
  ⟨(updateState_twice_idempotent c4EmptyState [c4EntryA, c4EntryB] 1 2
      (by decide) (by decide)).1,
    (updateState_twice_idempotent c4EmptyState [c4EntryA, c4EntryB] 1 2
      (by decide) (by decide)).2 (by decide) c4EntryA (by decide)⟩

/-- C8: with a non-negative recency window, every article the filter
keeps lies in the closed window `[now - recencyMaxHours, now]` — so an
article published strictly before the cutoff, or strictly after "now", is
always dropped; and a single article published exactly at the cutoff that
passes the content/sent rules is retained. -/
theorem filter_recency_boundary (cfg : ConfigPipeline) (articles : List ArticleRaw)
    (state : State) (now : Int) (a : ArticleRaw)
    (hhours : 0 ≤ cfg.recencyMaxHours) :
    (∀ x ∈ filterApply cfg articles state now,
        now - cfg.recencyMaxHours * nsPerHour ≤ x.publishedAt ∧
          x.publishedAt ≤ now) ∧
    (a.publishedAt = now - cfg.recencyMaxHours * nsPerHour →
      cfg.minContentLength ≤ ((trimChars a.rawContent.data).length : Int) →
      a.id ∉ ledgerIDs state.sentArticles →
      filterApply cfg [a] state now = [a]) := by
  constructor
  · intro x hx
    have h := filterApplyLoop_mem_time_window cfg (ledgerIDs state.sentArticles)
      now articles [] x hx
    exact ⟨not_lt.mp h.1, not_lt.mp h.2⟩
  · intro hpub hlen hsent
    have hcut : ¬ a.publishedAt < now - cfg.recencyMaxHours * nsPerHour := by
      rw [hpub]
      exact lt_irrefl _
    have hfut : ¬ now < a.publishedAt := by
      rw [hpub]
      have : (0 : Int) ≤ cfg.recencyMaxHours * nsPerHour :=
        mul_nonneg hhours (by norm_num [nsPerHour])
      omega
    have hkeep : filterKeeps cfg (ledgerIDs state.sentArticles) now [] a = true := by
      simp [filterKeeps, hcut, hfut, not_lt.mpr hlen, hsent]
    simp [filterApply, filterApplyLoop, hkeep]

/-- The 48-hour filter configuration of the C8 witness scenario. -/
def cfg48 : ConfigPipeline :=
  { recencyMaxHours := 48, minContentLength := 3, maxArticlesPerCategory := 5,
    maxTotalMessages := 5, maxArticlesBeforeGemini := 0, categories := [] }

/-- The boundary article of the C8 witness: published exactly at
`now - 48h` for `now = 0`. -/
def articleBoundary : ArticleRaw :=
  { id := "w8", source := "s", title := "t", url := "u",
    publishedAt := -172800000000000, rawLanguage := "vi", rawContent := "abc",
    metadata := [] }

/-- An empty prior state for the C8 witness. -/
def c8State : State :=
  { lastRun := 0, sentArticles := [], recipients := [],
    telegram := { lastUpdateID := 0 } }

/-- C8 witness: the boundary article is retained by the filter. -/
theorem filter_recency_boundary_witness :
    filterApply cfg48 [articleBoundary] c8State 0 = [articleBoundary] :=
  (filter_recency_boundary cfg48 [articleBoundary] c8State 0 articleBoundary
      (by decide)).2 (by decide) (by decide) (by decide)

theorem alistGet_buildArticleMap_id (articles : List ArticleRaw) :
    ∀ k a, alistGet (buildArticleMap articles) k = some a → a.id = k := by
  suffices h : ∀ (m0 : List (String × ArticleRaw)),
      (∀ k a, alistGet m0 k = some a → a.id = k) →
      ∀ k a, alistGet (articles.foldl (fun m a => m ++ [(a.id, a)]) m0) k = some a →
        a.id = k by
    exact h [] (by intro k a h; simp [alistGet] at h)
  induction articles with
  | nil => intro m0 hm0; exact hm0
  | cons x xs ih =>
    intro m0 hm0
    refine ih (m0 ++ [(x.id, x)]) ?_
    intro k a h
    rw [alistGet_append_single] at h
    by_cases hk : x.id = k
    · rw [if_pos hk] at h
      cases h
      exact hk
    · rw [if_neg hk] at h
      exact hm0 k a h

/-- Keys the response never mentions are untouched by the response fold. -/
theorem buildCategorizedMap_unmentioned (cats : List String)
    (articles : List ArticleRaw) (resp : List CategoryResponse) (k : String)
    (hk : k ∉ resp.map (·.id)) :
    alistGet (buildCategorizedMap cats (buildArticleMap articles) resp) k = none := by
  suffices h : ∀ (rs : List CategoryResponse)
      (m0 : List (String × CategorizedArticle)), k ∉ rs.map (·.id) →
      alistGet (rs.foldl (categorizedMapStep cats (buildArticleMap articles)) m0) k
        = alistGet m0 k by
    simpa [buildCategorizedMap, alistGet] using h resp [] hk
  intro rs
  induction rs with
  | nil => intro m0 _; rfl
  | cons r rs ih =>
    intro m0 hk'
    rw [List.map_cons, List.mem_cons] at hk'
    push_neg at hk'
    rw [List.foldl_cons]
    rw [ih _ hk'.2]
    unfold categorizedMapStep
    cases hart : alistGet (buildArticleMap articles) r.id with
    | none => rfl
    | some article =>
      have hid : article.id = r.id := alistGet_buildArticleMap_id articles _ _ hart
      simp only []
      rw [alistGet_append_single, if_neg]
      rw [hid]
      exact fun h => hk'.1 h.symm

/-- Every value reachable in the categorized map after the response fold
has its key as article id and a default-or-configured category. -/
theorem buildCategorizedMap_values (cats : List String)
    (articleMap : List (String × ArticleRaw)) (resp : List CategoryResponse) :
    ∀ k v, alistGet (buildCategorizedMap cats articleMap resp) k = some v →
      v.article.id = k ∧
        (v.category = defaultCategory ∨ isValidCategory cats v.category = true) := by
  suffices h : ∀ (rs : List CategoryResponse)
      (m0 : List (String × CategorizedArticle)),
      (∀ k v, alistGet m0 k = some v → v.article.id = k ∧
        (v.category = defaultCategory ∨ isValidCategory cats v.category = true)) →
      ∀ k v, alistGet (rs.foldl (categorizedMapStep cats articleMap) m0) k = some v →
        v.article.id = k ∧
          (v.category = defaultCategory ∨ isValidCategory cats v.category = true) by
    exact h resp [] (by intro k v hv; simp [alistGet] at hv)
  intro rs
  induction rs with
  | nil => intro m0 hm0; exact hm0
  | cons r rs ih =>
    intro m0 hm0
    rw [List.foldl_cons]
    refine ih _ ?_
    intro k v hv
    unfold categorizedMapStep at hv
    cases hart : alistGet articleMap r.id with
    | none =>
      rw [hart] at hv
      exact hm0 k v hv
    | some article =>
      rw [hart] at hv
      simp only [] at hv
      rw [alistGet_append_single] at hv
      by_cases hk : article.id = k
      · rw [if_pos hk] at hv
        cases hv
        refine ⟨hk, ?_⟩
        by_cases hvalid : isValidCategory cats
            (String.mk (trimChars r.category.data)) = true
        · right
          simp [hvalid]
        · left
          simp [hvalid]
      · rw [if_neg hk] at hv
        exact hm0 k v hv

theorem fillStep_preserves (m0 : List (String × CategorizedArticle))
    (x : ArticleRaw) (k : String) (hk : (alistGet m0 k).isSome) :
    alistGet (fillStep m0 x) k = alistGet m0 k := by
  rw [fillStep]
  by_cases h : (alistGet m0 x.id).isSome
  · rw [if_pos h]
  · rw [if_neg h, alistGet_append_single, if_neg]
    intro he
    rw [he] at h
    exact h hk

/-- `fillDefaults` never changes the binding of a key that is already
present. -/
theorem fillDefaults_preserves (articles : List ArticleRaw)
    (m0 : List (String × CategorizedArticle)) (k : String)
    (hk : (alistGet m0 k).isSome) :
    alistGet (fillDefaults articles m0) k = alistGet m0 k := by
  induction articles generalizing m0 with
  | nil => rfl
  | cons x xs ih =>
    rw [fillDefaults, List.foldl_cons]
    have hstep := fillStep_preserves m0 x k hk
    rw [show List.foldl fillStep (fillStep m0 x) xs
      = fillDefaults xs (fillStep m0 x) from rfl]
    rw [ih (fillStep m0 x) (by rw [hstep]; exact hk), hstep]

theorem fillStep_mem (m0 : List (String × CategorizedArticle)) (x : ArticleRaw) :
    (alistGet (fillStep m0 x) x.id).isSome := by
  rw [fillStep]
  by_cases h : (alistGet m0 x.id).isSome
  · rw [if_pos h]
    exact h
  · rw [if_neg h, alistGet_append_single, if_pos rfl]
    rfl

/-- After `fillDefaults`, every input article's id has a binding. -/
theorem fillDefaults_total (articles : List ArticleRaw)
    (m0 : List (String × CategorizedArticle)) :
    ∀ a ∈ articles, (alistGet (fillDefaults articles m0) a.id).isSome := by
  induction articles generalizing m0 with
  | nil => intro a ha; cases ha
  | cons x xs ih =>
    intro a ha
    rw [fillDefaults, List.foldl_cons,
      show List.foldl fillStep (fillStep m0 x) xs
        = fillDefaults xs (fillStep m0 x) from rfl]
    rcases List.mem_cons.mp ha with rfl | ha'
    · have h1 := fillStep_mem m0 a
      rw [fillDefaults_preserves xs (fillStep m0 a) a.id h1]
      exact h1
    · exact ih (fillStep m0 x) a ha'

/-- `fillDefaults` keeps the per-binding invariant (article id matches the
key; category default or configured): it only inserts default-category
bindings keyed by their article's id. -/
theorem fillDefaults_values (cats : List String) (articles : List ArticleRaw)
    (m0 : List (String × CategorizedArticle))
    (hm0 : ∀ k v, alistGet m0 k = some v → v.article.id = k ∧
      (v.category = defaultCategory ∨ isValidCategory cats v.category = true)) :
    ∀ k v, alistGet (fillDefaults articles m0) k = some v → v.article.id = k ∧
      (v.category = defaultCategory ∨ isValidCategory cats v.category = true) := by
  induction articles generalizing m0 with
  | nil => exact hm0
  | cons x xs ih =>
    rw [fillDefaults, List.foldl_cons,
      show List.foldl fillStep (fillStep m0 x) xs
        = fillDefaults xs (fillStep m0 x) from rfl]
    refine ih (fillStep m0 x) ?_
    intro k v hv
    rw [fillStep] at hv
    by_cases h : (alistGet m0 x.id).isSome
    · rw [if_pos h] at hv
      exact hm0 k v hv
    · rw [if_neg h, alistGet_append_single] at hv
      by_cases he : x.id = k
      · rw [if_pos he] at hv
        cases hv
        exact ⟨he, Or.inl rfl⟩
      · rw [if_neg he] at hv
        exact hm0 k v hv

/-- A key absent before `fillDefaults` is afterwards either still absent
or bound to a default-category entry. -/
theorem fillDefaults_of_none (articles : List ArticleRaw)
    (m0 : List (String × CategorizedArticle)) (k : String)
    (hk : alistGet m0 k = none) :
    alistGet (fillDefaults articles m0) k = none ∨
      ∃ v, alistGet (fillDefaults articles m0) k = some v ∧
        v.category = defaultCategory := by
  induction articles generalizing m0 with
  | nil => exact Or.inl hk
  | cons x xs ih =>
    rw [fillDefaults, List.foldl_cons,
      show List.foldl fillStep (fillStep m0 x) xs
        = fillDefaults xs (fillStep m0 x) from rfl]
    by_cases hx : x.id = k
    · have hset : alistGet (fillStep m0 x) k = some
          { article := x, category := defaultCategory, categoryConfidence := 0,
            relevanceScore := 0 } := by
        rw [fillStep, if_neg (by rw [hx, hk]; simp), alistGet_append_single,
          if_pos hx]
      right
      have hpres : alistGet (fillDefaults xs (fillStep m0 x)) k = some
          { article := x, category := defaultCategory, categoryConfidence := 0,
            relevanceScore := 0 } := by
        rw [fillDefaults_preserves xs _ k (by rw [hset]; rfl), hset]
      exact ⟨_, hpres, rfl⟩
    · have hstep : alistGet (fillStep m0 x) k = alistGet m0 k := by
        rw [fillStep]
        by_cases h : (alistGet m0 x.id).isSome
        · rw [if_pos h]
        · rw [if_neg h, alistGet_append_single, if_neg hx]
      exact ih (fillStep m0 x) (hstep.trans hk)

/-- C6: for every categorization batch and parsed response, the stage
output has exactly one entry per input article, in input order (the i-th
output carries the i-th input article's id); every input article whose id
the response omitted is assigned the default category "Другое / Разное";
and every output category is either the default or one of the configured
categories (an unrecognized response category having been coerced to the
default). -/
theorem categorizeBatch_fallback_cardinality (cats : List String)
    (articles : List ArticleRaw) (resp : List CategoryResponse) :
    (categorizeBatchModel cats articles resp).length = articles.length ∧
    List.Forall₂
      (fun (a : ArticleRaw) (c : CategorizedArticle) =>
        c.article.id = a.id ∧
        (a.id ∉ resp.map (·.id) → c.category = defaultCategory) ∧
        (c.category = defaultCategory ∨ isValidCategory cats c.category = true))
      articles (categorizeBatchModel cats articles resp) := by
  refine ⟨by simp [categorizeBatchModel], ?_⟩
  rw [show categorizeBatchModel cats articles resp = articles.map
      (fun article => (alistGet (fillDefaults articles
        (buildCategorizedMap cats (buildArticleMap articles) resp))
          article.id).getD zeroCategorizedArticle) from rfl]
  rw [List.forall₂_map_right_iff, List.forall₂_same]
  intro a ha
  obtain ⟨v, hv⟩ := Option.isSome_iff_exists.mp
    (fillDefaults_total articles
      (buildCategorizedMap cats (buildArticleMap articles) resp) a ha)
  rw [hv]
  have hval := fillDefaults_values cats articles
    (buildCategorizedMap cats (buildArticleMap articles) resp)
    (buildCategorizedMap_values cats (buildArticleMap articles) resp) a.id v hv
  refine ⟨hval.1, ?_, hval.2⟩
  intro homit
  have hnone := buildCategorizedMap_unmentioned cats articles resp a.id homit
  rcases fillDefaults_of_none articles
      (buildCategorizedMap cats (buildArticleMap articles) resp) a.id hnone with
    h | ⟨w, hw, hwcat⟩
  · rw [hv] at h
    cases h
  · rw [hv] at hw
    cases hw
    exact hwcat

theorem clampScore_bounds (s : ℚ) : 0 ≤ clampScore s ∧ clampScore s ≤ 10 := by
  simp only [clampScore]
  split_ifs <;> constructor <;> linarith

theorem scoresMapGet_bounds (scores : List RelevanceScoreResponse) (i : String) :
    scoresMapGet scores i = none ∨
      ∃ q, scoresMapGet scores i = some q ∧ 0 ≤ q ∧ q ≤ 10 := by
  suffices h : ∀ (l : List RelevanceScoreResponse) (acc : Option ℚ),
      (acc = none ∨ ∃ q, acc = some q ∧ 0 ≤ q ∧ q ≤ 10) →
      (l.foldl (fun acc scoreResp =>
          if scoreResp.id = i then some (clampScore scoreResp.relevanceScore)
          else acc) acc = none ∨
        ∃ q, l.foldl (fun acc scoreResp =>
          if scoreResp.id = i then some (clampScore scoreResp.relevanceScore)
          else acc) acc = some q ∧ 0 ≤ q ∧ q ≤ 10) by
    exact h scores none (Or.inl rfl)
  intro l
  induction l with
  | nil => intro acc hacc; exact hacc
  | cons r rs ih =>
    intro acc hacc
    rw [List.foldl_cons]
    refine ih _ ?_
    by_cases hr : r.id = i
    · rw [if_pos hr]
      exact Or.inr ⟨_, rfl, clampScore_bounds r.relevanceScore⟩
    · rw [if_neg hr]
      exact hacc

/-- C9: the ranking stage clamps every response score into [0, 10] — a
returned score below 0 is stored as 0, one above 10 is stored as 10 — and
every article in the `rankBatch` output carries a score inside the 0–10
scale (omitted ids get the in-range 5.0 fallback). -/
theorem rankBatch_scores_clamped :
    (∀ s : ℚ, (s < 0 → clampScore s = 0) ∧ (10 < s → clampScore s = 10)) ∧
    (∀ (articles : List CategorizedArticle)
        (scores : List RelevanceScoreResponse),
      ∀ a ∈ rankBatchReconcile articles scores,
        0 ≤ a.relevanceScore ∧ a.relevanceScore ≤ 10) := by
  constructor
  · intro s
    constructor
    · intro hs
      simp only [clampScore]
      rw [if_pos hs, if_neg (by norm_num)]
    · intro hs
      have h0 : ¬ s < 0 := by linarith
      simp only [clampScore]
      rw [if_neg h0, if_pos (show s > 10 from hs)]
  · intro articles scores a ha
    rw [rankBatchReconcile] at ha
    obtain ⟨b, _, rfl⟩ := List.mem_map.mp ha
    simp only []
    rcases scoresMapGet_bounds scores b.article.id with h | ⟨q, hq, hq0, hq10⟩
    · rw [h]
      norm_num
    · rw [hq]
      exact ⟨hq0, hq10⟩

/-- The concrete article of the C9 witness. -/
def c9Article : CategorizedArticle :=
  { article :=
      { id := "r9", source := "s", title := "t", url := "u", publishedAt := 0,
        rawLanguage := "vi", rawContent := "c", metadata := [] },
    category := "Экономика", categoryConfidence := 0, relevanceScore := 0 }

/-- The output entry of the C9 witness scenario: the response score 12 is
clamped to 10. -/
def c9Out : CategorizedArticle := { c9Article with relevanceScore := 10 }

/-- C9 witness: a response score of 12 is stored as 10, one of -1 as 0, and
the concrete reconciled output article's score is inside [0, 10]. -/
theorem rankBatch_scores_clamped_witness :
    clampScore (-1) = 0 ∧ clampScore 12 = 10 ∧
    (0 ≤ c9Out.relevanceScore ∧ c9Out.relevanceScore ≤ 10) :=
  ⟨(rankBatch_scores_clamped.1 (-1)).1 (by norm_num),
    (rankBatch_scores_clamped.1 12).2 (by norm_num),
    rankBatch_scores_clamped.2 [c9Article]
      [{ id := "r9", relevanceScore := 12 }] c9Out (by
        have h : rankBatchReconcile [c9Article]
            [{ id := "r9", relevanceScore := 12 }] = [c9Out] := by
          norm_num [rankBatchReconcile, scoresMapGet, clampScore, c9Article, c9Out]
        rw [h]
        exact List.mem_singleton.mpr rfl)⟩

theorem insertScoredDesc_notGT (x : CategorizedArticle)
    (l : List CategorizedArticle)
    (h : ∀ y ∈ l, ¬ x.relevanceScore > y.relevanceScore) :
    insertScoredDesc x l = l ++ [x] := by
  induction l with
  | nil => rfl
  | cons y ys ih =>
    rw [insertScoredDesc, if_neg (h y (List.mem_cons_self y ys)),
      ih (fun z hz => h z (List.mem_cons_of_mem y hz))]
    rfl

/-- Sorting a list whose scores are pairwise equal is a no-op (the insert
step never moves an element past an equal-scored one). -/
theorem sortByScoreDesc_const (c : ℚ) (l : List CategorizedArticle)
    (h : ∀ a ∈ l, a.relevanceScore = c) :
    sortByScoreDesc l = l := by
  suffices haux : ∀ (l' acc : List CategorizedArticle),
      (∀ a ∈ l', a.relevanceScore = c) → (∀ a ∈ acc, a.relevanceScore = c) →
      l'.foldl (fun acc x => insertScoredDesc x acc) acc = acc ++ l' by
    simpa [sortByScoreDesc] using haux l [] h (by intro a ha; cases ha)
  intro l'
  induction l' with
  | nil =>
    intro acc _ _
    simp
  | cons x xs ih =>
    intro acc hl hacc
    rw [List.foldl_cons]
    rw [show insertScoredDesc x acc = acc ++ [x] from
      insertScoredDesc_notGT x acc (fun y hy => by
        rw [hl x (List.mem_cons_self x xs), hacc y hy]
        exact lt_irrefl c)]
    rw [ih (acc ++ [x]) (fun a ha => hl a (List.mem_cons_of_mem x ha))]
    · simp
    · intro a ha
      rcases List.mem_append.mp ha with h1 | h1
      · exact hacc a h1
      · rw [List.mem_singleton.mp h1]
        exact hl x (List.mem_cons_self x xs)

/-- C5: when the external ranking call for a category fails entirely and
the category's articles all carry the same (unranked fallback) score, the
per-category loop of `Ranker.Rank` returns the input articles unchanged
and in input order — the descending sort is a no-op and no score is
modified — truncated only by the configured max-per-category cap. -/
theorem rank_category_error_fallback (maxPerCategory : Nat) (category : String)
    (articles : List CategorizedArticle) (e : String) (c : ℚ)
    (hall : ∀ a ∈ articles, a.relevanceScore = c) :
    rankOneCategory maxPerCategory category articles (.error e) =
      articles.take maxPerCategory := by
  rw [rankOneCategory]
  by_cases hnil : articles = []
  · subst hnil
    simp [rankCategoryModel, sortByScoreDesc]
  · rw [rankCategoryModel, if_neg hnil]
    simp only []
    rw [sortByScoreDesc_const c articles hall]

/-- A category article with score left at the categorizer's zero value. -/
def c5Article (i : String) : CategorizedArticle :=
  { article :=
      { id := i, source := "s", title := "t", url := "u", publishedAt := 0,
        rawLanguage := "vi", rawContent := "c", metadata := [] },
    category := "Экономика", categoryConfidence := 0, relevanceScore := 0 }

/-- C5 witness: a category of 3 articles whose ranking call fails comes
back unchanged (cap 5 not reached). -/
theorem rank_category_error_fallback_witness :
    rankOneCategory 5 "Экономика" [c5Article "1", c5Article "2", c5Article "3"]
      (.error "boom") = [c5Article "1", c5Article "2", c5Article "3"] :=
  rank_category_error_fallback 5 "Экономика"
    [c5Article "1", c5Article "2", c5Article "3"] "boom" 0 (by decide)

theorem generateTextAux_zero (calls : Nat → CallOutcome) (cancelled : Nat → Bool)
    (attempt : Nat) (lastErr : String) :
    generateTextAux calls cancelled attempt 0 lastErr =
      (.error (.maxRetries lastErr), 0) := rfl

theorem generateTextAux_succ (calls : Nat → CallOutcome) (cancelled : Nat → Bool)
    (attempt fuel : Nat) (lastErr : String) :
    generateTextAux calls cancelled attempt (fuel + 1) lastErr =
      (if 0 < attempt ∧ cancelled attempt then ((.error .cancelled : Except GenError String), 0)
      else
        match calls attempt with
        | .ok text => (.ok text, 1)
        | .textFailed e => (.error (.textErr e), 1)
        | .failed e =>
          if isRPDQuotaError e then (.error (.rpdQuota e), 1)
          else if isRateLimitError e then
            let r := generateTextAux calls cancelled (attempt + 1) fuel e
            (r.1, r.2 + 1)
          else if isServiceUnavailableError e then
            let r := generateTextAux calls cancelled (attempt + 1) fuel e
            (r.1, r.2 + 1)
          else if isTemporaryError e then
            let r := generateTextAux calls cancelled (attempt + 1) fuel e
            (r.1, r.2 + 1)
          else if isQuotaExceededError e then (.error (.quota e), 1)
          else (.error (.generate e), 1)) := rfl

/-- The rate-limit classifier already rules out RPD quota errors. -/
theorem isRateLimitError_not_rpd (e : String)
    (h : isRateLimitError e = true) : isRPDQuotaError e = false := by
  by_cases hr : isRPDQuotaError e = true
  · rw [isRateLimitError] at h
    simp only [hr, if_true] at h
    cases h
  · simpa using hr

/-- One retryable-failure step of the loop: a classified-retryable error
recurses with the attempt count incremented. -/
theorem generateTextAux_retry_step (calls : Nat → CallOutcome)
    (cancelled : Nat → Bool) (attempt fuel : Nat) (lastErr e : String)
    (hguard : ¬ (0 < attempt ∧ cancelled attempt = true))
    (hc : calls attempt = .failed e) (hret : retryableClassified e = true) :
    generateTextAux calls cancelled attempt (fuel + 1) lastErr =
      ((generateTextAux calls cancelled (attempt + 1) fuel e).1,
        (generateTextAux calls cancelled (attempt + 1) fuel e).2 + 1) := by
  rw [retryableClassified, Bool.and_eq_true, Bool.not_eq_true'] at hret
  obtain ⟨hrpd, hone⟩ := hret
  rw [generateTextAux_succ, if_neg (by simpa using hguard), hc]
  simp only [hrpd, Bool.false_eq_true, if_false]
  rcases Bool.or_eq_true _ _ |>.mp hone with h1 | h2
  · rcases Bool.or_eq_true _ _ |>.mp h1 with hrl | hsvc
    · rw [if_pos hrl]
    · by_cases hrl : isRateLimitError e = true
      · rw [if_pos hrl]
      · rw [if_neg hrl, if_pos hsvc]
  · by_cases hrl : isRateLimitError e = true
    · rw [if_pos hrl]
    · rw [if_neg hrl]
      by_cases hsvc : isServiceUnavailableError e = true
      · rw [if_pos hsvc]
      · rw [if_neg hsvc, if_pos h2]

/-- A rate-limit-classified failure is retryable. -/
theorem rateLimit_retryable (e : String) (h : isRateLimitError e = true) :
    retryableClassified e = true := by
  rw [retryableClassified, isRateLimitError_not_rpd e h, h]
  rfl

/-- C3: a failure the wrapper's own classification chain lands in a quota
branch (the RPD check, or the generic quota check after the retryable
checks all fail) makes `GenerateText` return at once — exactly one call is
made, and the surfaced error carries a quota marker, never the max-retries
marker; whereas a call whose five attempts all fail with rate-limit-
classified errors makes exactly 5 calls and surfaces the last error
wrapped with the distinct "max retries exceeded" marker. -/
theorem generateText_retry_classification (calls : Nat → CallOutcome)
    (cancelled : Nat → Bool) (e : String) (es : Nat → String) :
    (calls 0 = .failed e → quotaClassified e = true →
      (generateText calls cancelled).2 = 1 ∧
        ∃ err, (generateText calls cancelled).1 = .error err ∧
          quotaMarked err = true ∧ ∀ e', err ≠ .maxRetries e') ∧
    ((∀ k, k < genMaxRetries → calls k = .failed (es k) ∧
        isRateLimitError (es k) = true) →
      (∀ k, cancelled k = false) →
      generateText calls cancelled = (.error (.maxRetries (es 4)), 5) ∧
        (∀ e', GenError.maxRetries (es 4) ≠ .rpdQuota e' ∧
          GenError.maxRetries (es 4) ≠ .quota e')) := by
  constructor
  · intro h0 hq
    rw [quotaClassified, Bool.or_eq_true] at hq
    have hstep := generateTextAux_succ calls cancelled 0 4 ""
    rw [if_neg (by simp), h0] at hstep
    simp only [] at hstep
    have hrun : generateText calls cancelled =
        generateTextAux calls cancelled 0 (4 + 1) "" := rfl
    by_cases hrpd : isRPDQuotaError e = true
    · rw [if_pos hrpd] at hstep
      rw [hrun, hstep]
      exact ⟨rfl, GenError.rpdQuota e, rfl, rfl, fun e' => by simp⟩
    · rw [Bool.not_eq_true] at hrpd
      rcases hq with hq1 | hrest
      · rw [hq1] at hrpd
        cases hrpd
      · rw [Bool.and_eq_true, Bool.and_eq_true, Bool.and_eq_true] at hrest
        obtain ⟨⟨⟨hrl, hsvc⟩, htmp⟩, hquo⟩ := hrest
        rw [Bool.not_eq_true'] at hrl hsvc htmp
        rw [if_neg (by rw [hrpd]; exact Bool.false_ne_true),
          if_neg (by rw [hrl]; exact Bool.false_ne_true),
          if_neg (by rw [hsvc]; exact Bool.false_ne_true),
          if_neg (by rw [htmp]; exact Bool.false_ne_true),
          if_pos hquo] at hstep
        rw [hrun, hstep]
        exact ⟨rfl, GenError.quota e, rfl, rfl, fun e' => by simp⟩
  · intro hcalls hnc
    have hg : ∀ a : Nat, ¬ (0 < a ∧ cancelled a = true) := by
      intro a h
      rw [hnc a] at h
      exact Bool.false_ne_true h.2
    have s0 := generateTextAux_retry_step calls cancelled 0 4 "" (es 0) (hg 0)
      (hcalls 0 (by decide)).1 (rateLimit_retryable _ (hcalls 0 (by decide)).2)
    have s1 := generateTextAux_retry_step calls cancelled 1 3 (es 0) (es 1) (hg 1)
      (hcalls 1 (by decide)).1 (rateLimit_retryable _ (hcalls 1 (by decide)).2)
    have s2 := generateTextAux_retry_step calls cancelled 2 2 (es 1) (es 2) (hg 2)
      (hcalls 2 (by decide)).1 (rateLimit_retryable _ (hcalls 2 (by decide)).2)
    have s3 := generateTextAux_retry_step calls cancelled 3 1 (es 2) (es 3) (hg 3)
      (hcalls 3 (by decide)).1 (rateLimit_retryable _ (hcalls 3 (by decide)).2)
    have s4 := generateTextAux_retry_step calls cancelled 4 0 (es 3) (es 4) (hg 4)
      (hcalls 4 (by decide)).1 (rateLimit_retryable _ (hcalls 4 (by decide)).2)
    refine ⟨?_, fun e' => by constructor <;> simp⟩
    rw [show generateText calls cancelled =
        generateTextAux calls cancelled 0 (4 + 1) "" from rfl]
    rw [s0, show (4 : Nat) = 3 + 1 from rfl, s1,
      show (3 : Nat) = 2 + 1 from rfl, s2, show (2 : Nat) = 1 + 1 from rfl, s3,
      show (1 : Nat) = 0 + 1 from rfl, s4, generateTextAux_zero]

/-- A typical RPD-quota error text (429 plus the daily-metric marker). -/
def rpdErrText : String := "429 generate_content_free_tier_requests"

/-- A typical RPM rate-limit error text. -/
def rlErrText : String := "429 too many requests"

/-- C3 witness: a quota-exhausted first call makes exactly one attempt;
five rate-limited attempts surface the max-retries wrapper. -/
theorem generateText_retry_classification_witness :
    (generateText (fun _ => .failed rpdErrText) (fun _ => false)).2 = 1 ∧
    generateText (fun _ => .failed rlErrText) (fun _ => false) =
      (.error (.maxRetries rlErrText), 5) :=
  ⟨((generateText_retry_classification (fun _ => .failed rpdErrText)
      (fun _ => false) rpdErrText (fun _ => rlErrText)).1 rfl (by decide)).1,
    ((generateText_retry_classification (fun _ => .failed rlErrText)
      (fun _ => false) rlErrText (fun _ => rlErrText)).2
      (fun k _ => ⟨rfl, by decide⟩) (fun _ => rfl)).1⟩

/-- Once the loop is past its first attempt, a cancellation observed during
the backoff before attempt `attempt + j` (with retryable failures until
then) aborts the loop with the cancellation error after exactly `j` more
calls. -/
theorem generateTextAux_cancel (calls : Nat → CallOutcome)
    (cancelled : Nat → Bool) (es : Nat → String) (j : Nat) :
    ∀ (attempt fuel : Nat) (lastErr : String), 1 ≤ attempt → j < fuel →
      (∀ k, k < j → calls (attempt + k) = .failed (es (attempt + k)) ∧
        retryableClassified (es (attempt + k)) = true) →
      (∀ i, attempt ≤ i → i < attempt + j → cancelled i = false) →
      cancelled (attempt + j) = true →
      generateTextAux calls cancelled attempt fuel lastErr =
        (.error .cancelled, j) := by
  induction j with
  | zero =>
    intro attempt fuel lastErr ha hj hcalls hnc hcanc
    obtain ⟨f, rfl⟩ : ∃ f, fuel = f + 1 := ⟨fuel - 1, by omega⟩
    rw [generateTextAux_succ, if_pos ⟨by omega, by simpa using hcanc⟩]
  | succ j ih =>
    intro attempt fuel lastErr ha hj hcalls hnc hcanc
    obtain ⟨f, rfl⟩ : ∃ f, fuel = f + 1 := ⟨fuel - 1, by omega⟩
    have hg : ¬ (0 < attempt ∧ cancelled attempt = true) := by
      intro h
      rw [hnc attempt (le_refl _) (by omega)] at h
      exact Bool.false_ne_true h.2
    have h0 := hcalls 0 (by omega)
    rw [Nat.add_zero] at h0
    rw [generateTextAux_retry_step calls cancelled attempt f lastErr
      (es attempt) hg h0.1 h0.2]
    rw [ih (attempt + 1) f (es attempt) (by omega) (by omega)
      (fun k hk => by
        rw [show attempt + 1 + k = attempt + (k + 1) from by omega]
        exact hcalls (k + 1) (by omega))
      (fun i h1 h2 => hnc i (by omega) (by omega))
      (by
        rw [show attempt + 1 + j = attempt + (j + 1) from by omega]
        exact hcanc)]

/-- C7: if every call before the `j`-th backoff fails with a retryable
classification and the cancellation signal is observed during that backoff
(and not earlier), `GenerateText` returns the cancellation error
immediately: exactly `j` of the 5 budgeted calls were made and no further
attempt or backoff happens. -/
theorem generateText_cancel_aborts (calls : Nat → CallOutcome)
    (cancelled : Nat → Bool) (es : Nat → String) (j : Nat)
    (hj1 : 1 ≤ j) (hj4 : j < genMaxRetries)
    (hcalls : ∀ k, k < j → calls k = .failed (es k) ∧
      retryableClassified (es k) = true)
    (hnc : ∀ i, 1 ≤ i → i < j → cancelled i = false)
    (hcanc : cancelled j = true) :
    generateText calls cancelled = (.error .cancelled, j) := by
  rw [genMaxRetries] at hj4
  rw [show generateText calls cancelled =
      generateTextAux calls cancelled 0 (4 + 1) "" from rfl]
  rw [generateTextAux_retry_step calls cancelled 0 4 "" (es 0) (by simp)
    (hcalls 0 (by omega)).1 (hcalls 0 (by omega)).2]
  rw [generateTextAux_cancel calls cancelled es (j - 1) 1 4 (es 0)
    (le_refl 1) (by omega)
    (fun k hk => by
      rw [show 1 + k = k + 1 from by omega]
      exact hcalls (k + 1) (by omega))
    (fun i h1 h2 => hnc i h1 (by omega))
    (by
      rw [show 1 + (j - 1) = j from by omega]
      exact hcanc)]
  simp only []
  rw [show j - 1 + 1 = j from by omega]

/-- C7 witness: with retryable failures and the cancellation signal firing
during the backoff before the third call, the wrapper aborts with the
cancellation error after exactly 2 calls. -/
theorem generateText_cancel_aborts_witness :
    generateText (fun _ => .failed rlErrText) (fun i => decide (i = 2)) =
      (.error .cancelled, 2) :=
  generateText_cancel_aborts (fun _ => .failed rlErrText)
    (fun i => decide (i = 2)) (fun _ => rlErrText) 2 (by decide) (by decide)
    (fun k _ => ⟨rfl, show retryableClassified rlErrText = true by decide⟩)
    (fun i h1 h2 => by
      have : i = 1 := by omega
      subst this
      rfl)
    rfl

/-- C1 (amended): in a combined (non-build, non-send) run where every stage
up to ranking succeeds and ranking returns zero articles, the orchestrator
sends exactly one fixed service message to the resolved recipients and
performs no other effect — in particular the State is not persisted at
all: the sent-ledger is untouched and `lastRun` is *not* updated (the
no-relevant-news path returns before any `stateStore.Save`). -/
theorem run_no_relevant_news (p : PipelineFlags) (d : RunDeps) (s0 s1 : State)
    (recips : List RecipientBinding) (raw filt : List ArticleRaw)
    (categorized : List CategorizedArticle)
    (hTest : p.sendTestMessage = false) (hSend : p.sendMode = false)
    (hBuild : p.buildMode = false) (hSkip : p.skipGemini = false)
    (hCtx : d.ctxDone = false)
    (hLoad : d.loadState = .ok s0)
    (hResolve : resolveStep d s0 = .ok (s1, recips))
    (hRecips : recips ≠ [])
    (hCollect : d.collect = .ok raw)
    (hFilter : d.filterStage raw s1 = .ok filt)
    (hCat : d.categorize (limitArticles p.cfg filt) = .ok categorized)
    (hRank : d.rank categorized = .ok [])
    (hSendOk : d.sendResult recips [serviceMessage] = .ok ()) :
    run p d = (.ok (), [.sent recips [serviceMessage]]) := by
  rw [run, hLoad]
  simp only []
  rw [hResolve]
  simp only []
  rw [if_neg (by rw [hTest]; exact Bool.false_ne_true),
    if_neg (by rw [hSend]; exact Bool.false_ne_true)]
  rw [runMainBody, hCollect]
  simp only []
  rw [hFilter]
  simp only []
  rw [if_neg (by rw [hSkip]; exact Bool.false_ne_true)]
  rw [hCat]
  simp only []
  rw [if_neg (by rw [hCtx]; exact Bool.false_ne_true)]
  rw [hRank]
  simp only []
  rw [if_pos trivial]
  rw [if_neg (by rw [hBuild]; exact Bool.false_ne_true)]
  rw [if_neg (show ¬ (recips = [] ∧ ¬ p.forceDispatch = true) from
    fun h => hRecips h.1)]
  rw [if_pos hRecips, hSendOk]

/-- The recipient of the C1 scenario. -/
def c1Recipient : RecipientBinding := { name := "u", chatID := "42", updatedAt := 0 }

/-- The prior state of the C1 scenario (non-trivial ledger and lastRun). -/
def c1State : State :=
  { lastRun := 5, sentArticles := [{ id := "old", sentAt := 1 }],
    recipients := [], telegram := { lastUpdateID := 3 } }

/-- The C1 pipeline flags: plain combined mode. -/
def c1Flags : PipelineFlags :=
  { forceDispatch := false, skipGemini := false, sendTestMessage := false,
    buildMode := false, sendMode := false, senderPresent := true,
    cfg := { recencyMaxHours := 48, minContentLength := 0,
             maxArticlesPerCategory := 5, maxTotalMessages := 5,
             maxArticlesBeforeGemini := 0, categories := [] } }

/-- The C1 dependencies: every stage succeeds and ranking returns no
articles. -/
def c1Deps : RunDeps :=
  { loadState := .ok c1State,
    resolve := some (fun s => .ok (s, [c1Recipient])),
    collect := .ok [],
    filterStage := fun _ _ => .ok [],
    categorize := fun _ => .ok [],
    rank := fun _ => .ok [],
    summarize := fun _ => .ok [],
    buildMessages := fun _ => .ok [],
    sendResult := fun _ _ => .ok (),
    loadDigest := .ok none,
    saveStateResult := fun _ => .ok (),
    saveDigestResult := fun _ => .ok (),
    deleteDigestResult := .ok (),
    ctxDone := false,
    now := 99 }

/-- C1 counterexample: in this concrete zero-ranked run the orchestrator
dispatches the single fixed service message but records *no* state save —
contrary to the claim, `lastRun` is not updated in any persisted State
(nothing is persisted on this path). -/
theorem run_no_relevant_news_cex :
    run c1Flags c1Deps = (.ok (), [.sent [c1Recipient] [serviceMessage]]) ∧
    ∀ s : State, Effect.savedState s ∉ (run c1Flags c1Deps).2 := by
  have h : run c1Flags c1Deps =
      (.ok (), [.sent [c1Recipient] [serviceMessage]]) := rfl
  refine ⟨h, fun s => ?_⟩
  rw [h]
  simp

/-- C1 witness: the amended no-relevant-news theorem applied to the
concrete scenario. -/
theorem run_no_relevant_news_witness :
    run c1Flags c1Deps = (.ok (), [.sent [c1Recipient] [serviceMessage]]) :=
  run_no_relevant_news c1Flags c1Deps c1State c1State [c1Recipient] [] [] []
    rfl rfl rfl rfl rfl rfl rfl (by simp) rfl rfl rfl rfl rfl

end VietnamBot
